import Mathlib

/-!
# Budget-App: the analytics derivation of `src/pages/Dashboard.jsx`

A shallow embedding of the derived data the `Dashboard` component computes from the
store (`budgets`, `recurringIncome`, `recurringExpenses`), lines 19-129 of the source.

Modelling conventions:

* JavaScript numbers that hold money (`amount`, `spent`) are IEEE 754 binary64
  values (`Double` below), with `+`, `*`, `/` rounded to nearest, ties to even, and
  `>=` the comparison of values; `Number(item.amount)` is the identity on them.
* `id` is an integer, and `createdAt` is the integer time value (milliseconds) that
  `new Date(createdAt)` denotes; so both comparators return an integer.
* A field the source reads with `?.` may be absent: `transactions : Option _`.
* `Array.prototype.sort` is the stable sort ECMAScript prescribes; for a consistent
  comparator its result is the one computed by stable insertion (`sort` below).
* A thrown `TypeError` is `Except.error JsError.typeError`.
-/

namespace BudgetApp

set_option maxRecDepth 8192

/-! ## JavaScript numbers: IEEE 754 binary64 -/

/-- A binary64 value. `finite negative mantissa exponent` has the value
`± mantissa * 2 ^ exponent`; the arithmetic below returns the canonical form, in which
`mantissa < 2 ^ 53`, `-1074 ≤ exponent ≤ 971`, and `2 ^ 52 ≤ mantissa` unless
`exponent = -1074` (zero is `finite _ 0 (-1074)`). -/
inductive Double where
  | finite (negative : Bool) (mantissa : Nat) (exponent : Int)
  | infinity (negative : Bool)
  | nan
deriving DecidableEq

namespace Double

/-- Number of binary digits of `n`, with `fuel` steps. -/
def bitLengthAux : Nat → Nat → Nat
  | 0, _ => 0
  | fuel + 1, n => if n = 0 then 0 else bitLengthAux fuel (n / 2) + 1

/-- Number of binary digits of `n`. -/
def bitLength (n : Nat) : Nat := bitLengthAux n n

/-- The integer `l` with `2 ^ l ≤ n / d < 2 ^ (l + 1)`, for positive `n` and `d`. -/
def floorLog2 (n d : Nat) : Int :=
  let l : Int := (bitLength n : Int) - (bitLength d : Int)
  if 0 ≤ l then (if d * 2 ^ l.toNat ≤ n then l else l - 1)
  else (if d ≤ n * 2 ^ (-l).toNat then l else l - 1)

/-- The binary64 value nearest to `± (n / d) * 2 ^ k`, ties to even; overflow gives an
infinity, underflow a subnormal or zero. -/
def round (negative : Bool) (n d : Nat) (k : Int) : Double :=
  if n = 0 then .finite negative 0 (-1074) else
  let q : Int := max (floorLog2 n d + k - 52) (-1074)
  let s := k - q
  let num := if 0 ≤ s then n * 2 ^ s.toNat else n
  let den := if 0 ≤ s then d else d * 2 ^ (-s).toNat
  let m := num / den
  let r := num % den
  let m := if den < 2 * r ∨ (2 * r = den ∧ m % 2 = 1) then m + 1 else m
  if m = 2 ^ 53 then
    if 971 < q + 1 then .infinity negative else .finite negative (2 ^ 52) (q + 1)
  else if 971 < q then .infinity negative else .finite negative m q

/-- The integer `± mantissa * 2 ^ shift`. -/
def signed (negative : Bool) (mantissa : Nat) (shift : Int) : Int :=
  if negative then -((mantissa * 2 ^ shift.toNat : Nat) : Int)
  else ((mantissa * 2 ^ shift.toNat : Nat) : Int)

/-- The JavaScript `a + b`. -/
def add : Double → Double → Double
  | .nan, _ => .nan
  | _, .nan => .nan
  | .infinity s, .infinity t => if s = t then .infinity s else .nan
  | .infinity s, .finite _ _ _ => .infinity s
  | .finite _ _ _, .infinity t => .infinity t
  | .finite s m e, .finite t n f =>
    if m = 0 then (if n = 0 then .finite (s && t) 0 (-1074) else round t n 1 f)
    else if n = 0 then round s m 1 e
    else
      let z := signed s m (e - min e f) + signed t n (f - min e f)
      if z = 0 then .finite false 0 (-1074)
      else round (decide (z < 0)) z.natAbs 1 (min e f)

/-- The JavaScript `a * b`. -/
def mul : Double → Double → Double
  | .nan, _ => .nan
  | _, .nan => .nan
  | .infinity s, .infinity t => .infinity (xor s t)
  | .infinity s, .finite t n _ => if n = 0 then .nan else .infinity (xor s t)
  | .finite s m _, .infinity t => if m = 0 then .nan else .infinity (xor s t)
  | .finite s m e, .finite t n f => round (xor s t) (m * n) 1 (e + f)

/-- The JavaScript `a / b`. -/
def div : Double → Double → Double
  | .nan, _ => .nan
  | _, .nan => .nan
  | .infinity _, .infinity _ => .nan
  | .infinity s, .finite t _ _ => .infinity (xor s t)
  | .finite s _ _, .infinity t => .finite (xor s t) 0 (-1074)
  | .finite s m e, .finite t n f =>
    if n = 0 then (if m = 0 then .nan else .infinity (xor s t))
    else round (xor s t) m n (e - f)

/-- The JavaScript `a >= b`. -/
def ge : Double → Double → Bool
  | .nan, _ => false
  | _, .nan => false
  | .infinity s, .infinity t => !s || t
  | .infinity s, .finite _ _ _ => !s
  | .finite _ _ _, .infinity t => t
  | .finite s m e, .finite t n f =>
    if m = 0 then decide (n = 0 ∨ t = true)
    else if n = 0 then decide (s = false)
    else decide (signed t n (f - min e f) ≤ signed s m (e - min e f))

instance : Add Double := ⟨add⟩

instance : Mul Double := ⟨mul⟩

instance : Div Double := ⟨div⟩

/-- A numeric literal such as `12` denotes the nearest binary64 value. -/
instance (n : Nat) : OfNat Double n := ⟨round false n 1 0⟩

/-- A decimal literal such as `0.1` denotes the nearest binary64 value. -/
instance : OfScientific Double :=
  ⟨fun m s e => if s then round false m (10 ^ e) 0 else round false (m * 10 ^ e) 1 0⟩

/-- The exact value of a finite binary64 value. -/
def toRat : Double → Option ℚ
  | .finite negative mantissa exponent =>
    some ((if negative then -1 else 1) * (mantissa : ℚ) * (2 : ℚ) ^ exponent)
  | _ => none

end Double

/-! ## Data model -/

/-- A transaction of a budget. -/
structure Transaction where
  id : Int
  description : String
  amount : Double
  createdAt : Int
deriving DecidableEq

/-- A budget object as kept in `state.budgets.items`. The field `transactions` may be
absent; `τ` is what it holds when present: the list itself (`Budget`), or a reference
to an array on the heap (`BudgetObject`). -/
structure BudgetOf (τ : Type) where
  id : Int
  name : String
  amount : Double
  spent : Double
  transactions : Option τ
deriving DecidableEq

/-- A budget with its transactions list as a value. -/
abbrev Budget := BudgetOf (List Transaction)

/-- The object `{...transaction, budgetName: budget.name, budgetId: budget.id}`. -/
structure TaggedTransaction where
  id : Int
  description : String
  amount : Double
  createdAt : Int
  budgetName : String
  budgetId : Int
deriving DecidableEq

/-- A recurring income or expense item. -/
structure RecurringItem where
  amount : Double
  frequency : String
  isActive : Bool
deriving DecidableEq

/-- The `analytics` object literal (lines 51-78). -/
structure Analytics where
  totalBudget : Double
  totalSpent : Double
  totalTransactions : Nat
  totalBudgets : Nat
  completedBudgets : Nat
  monthlyIncome : Double
  monthlyExpenses : Double
deriving DecidableEq

/-- One entry of `chartData` (lines 125-129). -/
structure ChartEntry where
  name : String
  amount : Double
  spent : Double
deriving DecidableEq

/-- What the component hands to the view when there are budgets. -/
structure Overview where
  recentBudgets : List Budget
  recentTransactions : List TaggedTransaction
  analytics : Analytics
  chartData : List ChartEntry
deriving DecidableEq

/-- The two things the component can render. -/
inductive View where
  | emptyState : View
  | overview : Overview → View
deriving DecidableEq

/-- The exceptions the modelled code can throw. -/
inductive JsError where
  | typeError : JsError
deriving DecidableEq

/-! ## `Array.prototype.sort` -/

/-- Insert `x` into an already sorted list, in front of the first element it does not
have to follow (`cmp x y ≤ 0`); `x` stood before all of them in the input. -/
def sortInsert {α : Type} (cmp : α → α → Int) (x : α) : List α → List α
  | [] => [x]
  | y :: ys => if cmp x y ≤ 0 then x :: y :: ys else y :: sortInsert cmp x ys

/-- The result of `xs.sort(cmp)`: stable sort by a comparator. -/
def sort {α : Type} (cmp : α → α → Int) : List α → List α
  | [] => []
  | x :: xs => sortInsert cmp x (sort cmp xs)

/-! ## The derivations of `Dashboard` -/

/-- Line 37: `[...budgets].sort((a, b) => b.id - a.id).slice(0, 3)`. -/
def recentBudgets {τ : Type} (budgets : List (BudgetOf τ)) : List (BudgetOf τ) :=
  (sort (fun a b => b.id - a.id) budgets).take 3

/-- Lines 42-46: the callback of the inner `map`. -/
def tagTransaction {τ : Type} (budget : BudgetOf τ) (transaction : Transaction) :
    TaggedTransaction :=
  { id := transaction.id
    description := transaction.description
    amount := transaction.amount
    createdAt := transaction.createdAt
    budgetName := budget.name
    budgetId := budget.id }

/-- Lines 40-47: `budgets.flatMap(budget => budget.transactions.map(...))`.
`budget.transactions.map` on an absent list throws a `TypeError`. -/
def flatMapTransactions : List Budget → Except JsError (List TaggedTransaction)
  | [] => .ok []
  | budget :: rest =>
    match budget.transactions with
    | none => .error .typeError
    | some transactions =>
      match flatMapTransactions rest with
      | .error e => .error e
      | .ok tail => .ok (transactions.map (tagTransaction budget) ++ tail)

/-- Lines 40-49: the flattened list, sorted by `createdAt` descending, first five. -/
def recentTransactions (budgets : List Budget) : Except JsError (List TaggedTransaction) :=
  match flatMapTransactions budgets with
  | .error e => .error e
  | .ok flat => .ok ((sort (fun a b => b.createdAt - a.createdAt) flat).take 5)

/-- Line 52. -/
def totalBudget {τ : Type} (budgets : List (BudgetOf τ)) : Double :=
  budgets.foldl (fun sum budget => sum + budget.amount) 0

/-- Line 53. -/
def totalSpent {τ : Type} (budgets : List (BudgetOf τ)) : Double :=
  budgets.foldl (fun sum budget => sum + budget.spent) 0

/-- Line 54: `budget.transactions?.length || 0`. -/
def transactionsLength (budget : Budget) : Nat :=
  match budget.transactions with
  | none => 0
  | some transactions => transactions.length

/-- Line 54. -/
def totalTransactions (budgets : List Budget) : Nat :=
  budgets.foldl (fun sum budget => sum + transactionsLength budget) 0

/-- Line 56. -/
def completedBudgets {τ : Type} (budgets : List (BudgetOf τ)) : Nat :=
  (budgets.filter (fun budget => Double.ge budget.spent budget.amount)).length

/-- Lines 58-67. -/
def monthlyIncome (recurringIncome : List RecurringItem) : Double :=
  (recurringIncome.filter (fun item => item.isActive)).foldl
    (fun sum item =>
      let amount := item.amount
      if item.frequency = "weekly" then sum + (amount * 4)
      else if item.frequency = "yearly" then sum + (amount / 12)
      else sum + amount) 0

/-- Lines 68-77. -/
def monthlyExpenses (recurringExpenses : List RecurringItem) : Double :=
  (recurringExpenses.filter (fun item => item.isActive)).foldl
    (fun sum item =>
      let amount := item.amount
      if item.frequency = "weekly" then sum + (amount * 4)
      else if item.frequency = "yearly" then sum + (amount / 12)
      else sum + amount) 0

/-- Lines 51-78. -/
def analytics (budgets : List Budget) (recurringIncome recurringExpenses : List RecurringItem) :
    Analytics :=
  { totalBudget := totalBudget budgets
    totalSpent := totalSpent budgets
    totalTransactions := totalTransactions budgets
    totalBudgets := budgets.length
    completedBudgets := completedBudgets budgets
    monthlyIncome := monthlyIncome recurringIncome
    monthlyExpenses := monthlyExpenses recurringExpenses }

/-- Lines 125-129. -/
def chartData {τ : Type} (budgets : List (BudgetOf τ)) : List ChartEntry :=
  budgets.map (fun budget => { name := budget.name, amount := budget.amount, spent := budget.spent })

/-- The component, lines 12-129: the empty branch first, then the derived lists in
source order (`recentTransactions` may throw before `analytics` is evaluated). -/
def Dashboard (budgets : List Budget) (recurringIncome recurringExpenses : List RecurringItem) :
    Except JsError View :=
  if budgets.length = 0 then .ok .emptyState
  else
    let recent := recentBudgets budgets
    match recentTransactions budgets with
    | .error e => .error e
    | .ok transactions =>
      .ok (.overview
        { recentBudgets := recent
          recentTransactions := transactions
          analytics := analytics budgets recurringIncome recurringExpenses
          chartData := chartData budgets })

/-! ## The concrete scenario of the specification -/

/-- The two budgets of the scenario. -/
def scenarioBudgets : List Budget :=
  [ { id := 1, name := "", amount := 100, spent := 40,
      transactions := some [{ id := 1, description := "coffee", amount := 4, createdAt := 1704067200000 }] },
    { id := 2, name := "", amount := 200, spent := 200, transactions := some [] } ]

/-- The recurring income of the scenario. -/
def scenarioIncome : List RecurringItem :=
  [{ amount := 1000, frequency := "monthly", isActive := true }]

/-- The recurring expenses of the scenario. -/
def scenarioExpenses : List RecurringItem :=
  [{ amount := 140, frequency := "weekly", isActive := true }]

/-! ## Reference semantics: the arrays on a heap

JavaScript arrays are objects with identity, and `sort` rearranges its receiver in
place. To speak about what the component does to the arrays it is given, the same
code is embedded a second time with every array in a heap cell: a spread, `slice`,
`map` and `flatMap` allocate a fresh cell, `sort` overwrites the cell of its receiver. -/

/-- A reference to an array: its index in the heap. -/
abbrev Ref := Nat

/-- A budget object whose `transactions` field, when present, refers to an array. -/
abbrev BudgetObject := BudgetOf Ref

/-- The arrays the component touches, by element type. -/
inductive JsArray where
  | budgets : List BudgetObject → JsArray
  | transactions : List Transaction → JsArray
  | tagged : List TaggedTransaction → JsArray
  | chart : List ChartEntry → JsArray
deriving DecidableEq

/-- The heap: the arrays allocated so far, a reference being a position. -/
abbrev Heap := List JsArray

/-- Allocate a fresh array; the heap grows by one cell. -/
def alloc (heap : Heap) (array : JsArray) : Heap × Ref :=
  (heap ++ [array], heap.length)

/-- `ref.sort((a, b) => b.id - a.id)` on an array of budgets: overwrites the cell. -/
def sortBudgetsInPlace (heap : Heap) (ref : Ref) : Heap :=
  match heap[ref]? with
  | some (.budgets items) => heap.set ref (.budgets (sort (fun a b => b.id - a.id) items))
  | _ => heap

/-- `ref.sort((a, b) => new Date(b.createdAt) - new Date(a.createdAt))`: overwrites the
cell. -/
def sortTaggedInPlace (heap : Heap) (ref : Ref) : Heap :=
  match heap[ref]? with
  | some (.tagged items) =>
    heap.set ref (.tagged (sort (fun a b => b.createdAt - a.createdAt) items))
  | _ => heap

/-- `ref.slice(0, n)`: a fresh array with the first `n` elements of the receiver. -/
def slice (heap : Heap) (ref : Ref) (n : Nat) : Heap × Ref :=
  match heap[ref]? with
  | some (.budgets items) => alloc heap (.budgets (items.take n))
  | some (.transactions items) => alloc heap (.transactions (items.take n))
  | some (.tagged items) => alloc heap (.tagged (items.take n))
  | some (.chart items) => alloc heap (.chart (items.take n))
  | none => (heap, ref)

/-- Lines 40-47 on the heap: for each budget the inner `map` allocates the array of
tagged transactions, whose elements `flatMap` collects. A `transactions` field that is
absent (or refers to no array of transactions) throws; the heap reached is kept. -/
def flatMapOnHeap (heap : Heap) : List BudgetObject → Heap × Except JsError (List TaggedTransaction)
  | [] => (heap, .ok [])
  | budget :: rest =>
    match budget.transactions with
    | none => (heap, .error .typeError)
    | some ref =>
      match heap[ref]? with
      | some (.transactions transactions) =>
        let mapped := transactions.map (tagTransaction budget)
        match flatMapOnHeap (alloc heap (.tagged mapped)).1 rest with
        | (heap1, .error e) => (heap1, .error e)
        | (heap1, .ok tail) => (heap1, .ok (mapped ++ tail))
      | _ => (heap, .error .typeError)

/-- Line 54 on the heap: `budget.transactions?.length || 0`. -/
def transactionsLengthOnHeap (heap : Heap) (budget : BudgetObject) : Nat :=
  match budget.transactions with
  | none => 0
  | some ref =>
    match heap[ref]? with
    | some (.transactions transactions) => transactions.length
    | _ => 0

/-- Lines 51-78 on the heap; only reads. -/
def analyticsOnHeap (heap : Heap) (budgets : List BudgetObject)
    (recurringIncome recurringExpenses : List RecurringItem) : Analytics :=
  { totalBudget := totalBudget budgets
    totalSpent := totalSpent budgets
    totalTransactions :=
      budgets.foldl (fun sum budget => sum + transactionsLengthOnHeap heap budget) 0
    totalBudgets := budgets.length
    completedBudgets := completedBudgets budgets
    monthlyIncome := monthlyIncome recurringIncome
    monthlyExpenses := monthlyExpenses recurringExpenses }

/-- The derived data, by reference. -/
structure OverviewRefs where
  recentBudgets : Ref
  recentTransactions : Ref
  analytics : Analytics
  chartData : Ref
deriving DecidableEq

/-- What the component renders, the arrays by reference. -/
inductive ViewRefs where
  | emptyState : ViewRefs
  | overview : OverviewRefs → ViewRefs
deriving DecidableEq

/-- The component on the heap, lines 12-129: `budgets` refers to the array
`state.budgets.items`. Returns the heap it leaves behind and what it renders. -/
def DashboardOnHeap (heap : Heap) (budgets : Ref)
    (recurringIncome recurringExpenses : List RecurringItem) :
    Heap × Except JsError ViewRefs :=
  match heap[budgets]? with
  | some (.budgets items) =>
    if items.length = 0 then (heap, .ok .emptyState)
    else
      -- `[...budgets]`, `.sort(...)`, `.slice(0, 3)`
      let copy := alloc heap (.budgets items)
      let sorted := sortBudgetsInPlace copy.1 copy.2
      let recent := slice sorted copy.2 3
      -- `budgets.flatMap(...)`, `.sort(...)`, `.slice(0, 5)`
      match flatMapOnHeap recent.1 items with
      | (heap1, .error e) => (heap1, .error e)
      | (heap1, .ok flat) =>
        let flatRef := alloc heap1 (.tagged flat)
        let sortedFlat := sortTaggedInPlace flatRef.1 flatRef.2
        let recentTx := slice sortedFlat flatRef.2 5
        let chart := alloc recentTx.1 (.chart (chartData items))
        (chart.1, .ok (.overview
          { recentBudgets := recent.2
            recentTransactions := recentTx.2
            analytics := analyticsOnHeap recentTx.1 items recurringIncome recurringExpenses
            chartData := chart.2 }))
  | _ => (heap, .error .typeError)

/-! ## Reading a heap back into values -/

/-- The transactions list a reference denotes in a heap, if it denotes one. -/
def readTransactions (heap : Heap) (ref : Ref) : Option (List Transaction) :=
  match heap[ref]? with
  | some (.transactions transactions) => some transactions
  | _ => none

/-- The budget value a budget object denotes in a heap. -/
def snapshot (heap : Heap) (budget : BudgetObject) : Budget :=
  { id := budget.id
    name := budget.name
    amount := budget.amount
    spent := budget.spent
    transactions := budget.transactions.bind (readTransactions heap) }

/-- The view a view by reference denotes in a heap, if its references are arrays of
the expected kind. -/
def snapshotView (heap : Heap) : ViewRefs → Option View
  | .emptyState => some .emptyState
  | .overview o =>
    match heap[o.recentBudgets]?, heap[o.recentTransactions]?, heap[o.chartData]? with
    | some (.budgets recent), some (.tagged transactions), some (.chart chart) =>
      some (.overview
        { recentBudgets := recent.map (snapshot heap)
          recentTransactions := transactions
          analytics := o.analytics
          chartData := chart })
    | _, _, _ => none

/-- None of the cells is an array of transactions. -/
def NoTransactions (cells : List JsArray) : Prop :=
  ∀ cell ∈ cells, ∀ transactions, cell ≠ .transactions transactions

/-! ## Sample inputs -/

/-- A budget without a `transactions` field. -/
def bareBudget : Budget :=
  { id := 1, name := "Food", amount := 100, spent := 40, transactions := none }

/-- Four budgets, two of them with the same id, holding seven transactions, some of
them with the same timestamp. -/
def sampleBudgets : List Budget :=
  [ { id := 3, name := "Rent", amount := 900, spent := 900,
      transactions := some
        [ { id := 11, description := "january", amount := 450, createdAt := 50 },
          { id := 12, description := "february", amount := 450, createdAt := 80 } ] },
    { id := 7, name := "Food", amount := 300, spent := 120,
      transactions := some
        [ { id := 21, description := "market", amount := 70, createdAt := 80 },
          { id := 22, description := "bakery", amount := 50, createdAt := 20 },
          { id := 23, description := "coffee", amount := 4, createdAt := 90 } ] },
    { id := 3, name := "Travel", amount := 200, spent := 250,
      transactions := some
        [ { id := 31, description := "train", amount := 250, createdAt := 80 } ] },
    { id := 5, name := "Books", amount := 60, spent := 0,
      transactions := some
        [ { id := 41, description := "novel", amount := 0, createdAt := 50 } ] } ]

/-- One active yearly item of amount 100. -/
def yearlyHundred : List RecurringItem :=
  [{ amount := 100, frequency := "yearly", isActive := true }]

/-- Two budgets of amounts 0.1 and 0.2, each with an empty transactions list. -/
def dimeBudgets : List Budget :=
  [ { id := 1, name := "Sweets", amount := 0.1, spent := 0, transactions := some [] },
    { id := 2, name := "Stamps", amount := 0.2, spent := 0, transactions := some [] } ]

/-- Recurring items of every kind: weekly, yearly, monthly, inactive, and of a
frequency that is none of the three. -/
def sampleRecurring : List RecurringItem :=
  [ { amount := 10, frequency := "weekly", isActive := true },
    { amount := 120, frequency := "yearly", isActive := true },
    { amount := 7, frequency := "monthly", isActive := true },
    { amount := 1000, frequency := "weekly", isActive := false },
    { amount := 5, frequency := "daily", isActive := true } ]

/-- A heap holding the sample: cells 0 to 3 are the transactions arrays, cell 4 is the
array of budgets. -/
def sampleHeap : Heap :=
  [ .transactions
      [ { id := 11, description := "january", amount := 450, createdAt := 50 },
        { id := 12, description := "february", amount := 450, createdAt := 80 } ],
    .transactions
      [ { id := 21, description := "market", amount := 70, createdAt := 80 },
        { id := 22, description := "bakery", amount := 50, createdAt := 20 },
        { id := 23, description := "coffee", amount := 4, createdAt := 90 } ],
    .transactions [ { id := 31, description := "train", amount := 250, createdAt := 80 } ],
    .transactions [ { id := 41, description := "novel", amount := 0, createdAt := 50 } ],
    .budgets
      [ { id := 3, name := "Rent", amount := 900, spent := 900, transactions := some 0 },
        { id := 7, name := "Food", amount := 300, spent := 120, transactions := some 1 },
        { id := 3, name := "Travel", amount := 200, spent := 250, transactions := some 2 },
        { id := 5, name := "Books", amount := 60, spent := 0, transactions := some 3 } ] ]

/-! ## Specification-side notions -/

/-- The transactions list of a budget, an absent list read as empty. -/
def transactionsOrEmpty (budget : Budget) : List Transaction :=
  match budget.transactions with
  | none => []
  | some transactions => transactions

/-- Every budget of the list carries a transactions list, as the data model requires. -/
def AllHaveTransactions (budgets : List Budget) : Prop :=
  ∀ budget ∈ budgets, budget.transactions ≠ none

instance (budgets : List Budget) : Decidable (AllHaveTransactions budgets) := by
  unfold AllHaveTransactions
  infer_instance

/-- The flattened list of all transactions, budget by budget in input order and in
list order within a budget, each transaction keeping its own fields and carrying its
parent budget's name as `budgetName` and id as `budgetId`. -/
def flattened (budgets : List Budget) : List TaggedTransaction :=
  budgets.flatMap (fun parent =>
    (transactionsOrEmpty parent).map (fun t =>
      { id := t.id
        description := t.description
        amount := t.amount
        createdAt := t.createdAt
        budgetName := parent.name
        budgetId := parent.id }))

/-- The list `s` is the stable descending sort of `l` by `key`: a rearrangement of `l`
with non-increasing keys in which the elements of each key keep their order in `l`. -/
def IsStableSortDesc {α : Type} (key : α → Int) (l s : List α) : Prop :=
  s.Perm l ∧ s.Pairwise (fun a b => key b ≤ key a) ∧
    ∀ k : Int, s.filter (fun a => decide (key a = k)) = l.filter (fun a => decide (key a = k))

/-- Monthly equivalent of a recurring item, as the specification words it, in binary64
arithmetic: `amount·4` if weekly, `amount/12` if yearly, else `amount`. -/
def normalize (item : RecurringItem) : Double :=
  if item.frequency = "weekly" then item.amount * 4
  else if item.frequency = "yearly" then item.amount / 12
  else item.amount

/-- The binary64 sum of a list, added left to right from 0, each addition rounded. -/
def sumLeft (l : List Double) : Double :=
  l.foldl (fun sum x => sum + x) 0

/-- The exact sum of the values of a list of finite binary64 values. -/
def exactSum : List Double → Option ℚ
  | [] => some 0
  | x :: xs =>
    match x.toRat, exactSum xs with
    | some v, some sum => some (v + sum)
    | _, _ => none

/-- Monthly equivalent of a recurring item in exact arithmetic: `4A` if weekly, `A/12`
if yearly, else `A`, where `A` is the exact value of the amount. -/
def exactNormalize (item : RecurringItem) : Option ℚ :=
  match item.amount.toRat with
  | none => none
  | some A =>
    if item.frequency = "weekly" then some (4 * A)
    else if item.frequency = "yearly" then some (A / 12)
    else some A

/-- The exact sum over the active items of the exactly normalized amounts. -/
def exactMonthly : List RecurringItem → Option ℚ
  | [] => some 0
  | item :: rest =>
    if item.isActive then
      match exactNormalize item, exactMonthly rest with
      | some v, some sum => some (v + sum)
      | _, _ => none
    else exactMonthly rest

/-! ## Lemmas on `sort` -/

theorem sortInsert_perm {α : Type} (cmp : α → α → Int) (x : α) (l : List α) :
    (sortInsert cmp x l).Perm (x :: l) := by
  induction l with
  | nil => simp [sortInsert]
  | cons y ys ih =>
    unfold sortInsert
    split
    · exact List.Perm.refl _
    · exact (List.Perm.cons y ih).trans (List.Perm.swap x y ys)

theorem sort_perm {α : Type} (cmp : α → α → Int) (l : List α) : (sort cmp l).Perm l := by
  induction l with
  | nil => simp [sort]
  | cons x xs ih =>
    unfold sort
    exact (sortInsert_perm cmp x _).trans (List.Perm.cons x ih)

theorem sort_length {α : Type} (cmp : α → α → Int) (l : List α) :
    (sort cmp l).length = l.length :=
  (sort_perm cmp l).length_eq

theorem sortInsert_pairwise {α : Type} (key : α → Int) (x : α) (l : List α)
    (h : l.Pairwise (fun a b => key b ≤ key a)) :
    (sortInsert (fun a b => key b - key a) x l).Pairwise (fun a b => key b ≤ key a) := by
  induction l with
  | nil => simp [sortInsert]
  | cons y ys ih =>
    unfold sortInsert
    rw [List.pairwise_cons] at h
    split
    · rename_i hle
      refine List.Pairwise.cons ?_ (List.Pairwise.cons h.1 h.2)
      intro b hb
      rcases List.mem_cons.mp hb with rfl | hb
      · omega
      · have := h.1 b hb
        omega
    · rename_i hgt
      refine List.Pairwise.cons ?_ (ih h.2)
      intro b hb
      rcases List.mem_cons.mp ((sortInsert_perm _ x ys).subset hb) with rfl | hb
      · omega
      · exact h.1 b hb

theorem sort_pairwise {α : Type} (key : α → Int) (l : List α) :
    (sort (fun a b => key b - key a) l).Pairwise (fun a b => key b ≤ key a) := by
  induction l with
  | nil => simp [sort]
  | cons x xs ih =>
    unfold sort
    exact sortInsert_pairwise key x _ ih

theorem sortInsert_filter {α : Type} (key : α → Int) (k : Int) (x : α) (l : List α) :
    (sortInsert (fun a b => key b - key a) x l).filter (fun a => decide (key a = k))
      = (x :: l).filter (fun a => decide (key a = k)) := by
  induction l with
  | nil => simp [sortInsert]
  | cons y ys ih =>
    unfold sortInsert
    split
    · rfl
    · rename_i hgt
      rw [List.filter_cons, ih]
      by_cases hx : key x = k <;> by_cases hy : key y = k
      · omega
      · simp [List.filter_cons, hx, hy]
      · simp [List.filter_cons, hx, hy]
      · simp [List.filter_cons, hx, hy]

theorem sort_filter {α : Type} (key : α → Int) (k : Int) (l : List α) :
    (sort (fun a b => key b - key a) l).filter (fun a => decide (key a = k))
      = l.filter (fun a => decide (key a = k)) := by
  induction l with
  | nil => simp [sort]
  | cons x xs ih =>
    unfold sort
    rw [sortInsert_filter, List.filter_cons, List.filter_cons, ih]

theorem sort_isStableSortDesc {α : Type} (key : α → Int) (l : List α) :
    IsStableSortDesc key l (sort (fun a b => key b - key a) l) :=
  ⟨sort_perm _ l, sort_pairwise key l, fun k => sort_filter key k l⟩

theorem eq_of_pairwise_of_filter_eq {α : Type} (key : α → Int) :
    ∀ s t : List α, s.Pairwise (fun a b => key b ≤ key a) → t.Pairwise (fun a b => key b ≤ key a) →
      (∀ k : Int, s.filter (fun a => decide (key a = k)) = t.filter (fun a => decide (key a = k))) →
      s = t := by
  intro s
  induction s with
  | nil =>
    intro t _ _ h
    cases t with
    | nil => rfl
    | cons y ys =>
      have := h (key y)
      simp [List.filter_cons] at this
  | cons x xs ih =>
    intro t hs ht h
    cases t with
    | nil =>
      have := h (key x)
      simp [List.filter_cons] at this
    | cons y ys =>
      rw [List.pairwise_cons] at hs ht
      have hyx : key y ≤ key x := by
        have hy : y ∈ (x :: xs).filter (fun a => decide (key a = key y)) := by
          rw [h (key y)]
          simp [List.filter_cons]
        rcases List.mem_cons.mp (List.mem_filter.mp hy).1 with rfl | hmem
        · exact le_refl _
        · exact hs.1 y hmem
      have hxy : key x ≤ key y := by
        have hx : x ∈ (y :: ys).filter (fun a => decide (key a = key x)) := by
          rw [← h (key x)]
          simp [List.filter_cons]
        rcases List.mem_cons.mp (List.mem_filter.mp hx).1 with rfl | hmem
        · exact le_refl _
        · exact ht.1 x hmem
      have hkey : key y = key x := le_antisymm hyx hxy
      have hhead := h (key x)
      simp only [List.filter_cons, hkey, decide_True, if_true] at hhead
      have hx : x = y := (List.cons.inj hhead).1
      have htail : xs = ys := by
        apply ih ys hs.2 ht.2
        intro k
        by_cases hk : key x = k
        · subst hk
          exact (List.cons.inj hhead).2
        · have := h k
          simpa [List.filter_cons, hkey, hk] using this
      rw [hx, htail]

theorem isStableSortDesc_unique {α : Type} (key : α → Int) (l s t : List α)
    (hs : IsStableSortDesc key l s) (ht : IsStableSortDesc key l t) : s = t :=
  eq_of_pairwise_of_filter_eq key s t hs.2.1 ht.2.1 (fun k => (hs.2.2 k).trans (ht.2.2 k).symm)

/-! ## Lemmas on the reductions and on `flatMap` -/

theorem foldl_add_nat {α : Type} (f : α → Nat) (l : List α) (a : Nat) :
    l.foldl (fun sum x => sum + f x) a = a + (l.map f).sum := by
  induction l generalizing a with
  | nil => simp
  | cons x xs ih => simp [ih, add_assoc]

theorem totalBudget_eq_sumLeft (budgets : List Budget) :
    totalBudget budgets = sumLeft (budgets.map (fun budget => budget.amount)) := by
  unfold totalBudget sumLeft
  rw [List.foldl_map]

theorem totalSpent_eq_sumLeft (budgets : List Budget) :
    totalSpent budgets = sumLeft (budgets.map (fun budget => budget.spent)) := by
  unfold totalSpent sumLeft
  rw [List.foldl_map]

theorem transactionsLength_eq (budget : Budget) :
    transactionsLength budget = (transactionsOrEmpty budget).length := by
  unfold transactionsLength transactionsOrEmpty
  cases budget.transactions <;> rfl

theorem totalTransactions_eq_sum (budgets : List Budget) :
    totalTransactions budgets
      = (budgets.map (fun budget => (transactionsOrEmpty budget).length)).sum := by
  unfold totalTransactions
  rw [foldl_add_nat transactionsLength budgets 0, Nat.zero_add]
  congr 1
  exact List.map_congr_left (fun budget _ => transactionsLength_eq budget)

theorem flattened_length (budgets : List Budget) :
    (flattened budgets).length = totalTransactions budgets := by
  rw [totalTransactions_eq_sum]
  simp [flattened, List.length_flatMap, Function.comp_def]

theorem flatMapTransactions_of_all (budgets : List Budget) (hall : AllHaveTransactions budgets) :
    flatMapTransactions budgets = .ok (flattened budgets) := by
  induction budgets with
  | nil => rfl
  | cons budget rest ih =>
    have hrest : AllHaveTransactions rest := fun b hb => hall b (List.mem_cons_of_mem _ hb)
    have hb := hall budget (List.mem_cons_self _ _)
    unfold flatMapTransactions
    rw [ih hrest]
    cases htx : budget.transactions with
    | none => exact absurd htx hb
    | some transactions =>
      simp only [flattened, transactionsOrEmpty, htx, List.flatMap_cons]
      rfl

theorem Dashboard_of_all (budgets : List Budget) (recurringIncome recurringExpenses : List RecurringItem)
    (hne : budgets ≠ []) (hall : AllHaveTransactions budgets) :
    Dashboard budgets recurringIncome recurringExpenses = .ok (.overview
      { recentBudgets := recentBudgets budgets
        recentTransactions := (sort (fun a b => b.createdAt - a.createdAt) (flattened budgets)).take 5
        analytics := analytics budgets recurringIncome recurringExpenses
        chartData := chartData budgets }) := by
  have hlen : ¬ budgets.length = 0 := by
    intro h
    exact hne (List.length_eq_zero.mp h)
  simp [Dashboard, hlen, recentTransactions, flatMapTransactions_of_all budgets hall]

theorem flatMapTransactions_of_absent (budgets : List Budget)
    (habsent : ¬ AllHaveTransactions budgets) :
    flatMapTransactions budgets = .error .typeError := by
  induction budgets with
  | nil => exact absurd (fun _ h => absurd h (List.not_mem_nil _)) habsent
  | cons budget rest ih =>
    unfold flatMapTransactions
    cases htx : budget.transactions with
    | none => rfl
    | some transactions =>
      have hrest : ¬ AllHaveTransactions rest := by
        intro hall
        apply habsent
        intro b hb
        rcases List.mem_cons.mp hb with rfl | hb
        · rw [htx]
          exact Option.some_ne_none _
        · exact hall b hb
      simp only [ih hrest]

/-- The component throws exactly on the lists in which some budget lacks its
transactions list. -/
theorem Dashboard_throws_iff (budgets : List Budget)
    (recurringIncome recurringExpenses : List RecurringItem) :
    Dashboard budgets recurringIncome recurringExpenses = .error .typeError
      ↔ ¬ AllHaveTransactions budgets := by
  constructor
  · intro h hall
    by_cases hne : budgets = []
    · subst hne
      cases h
    · rw [Dashboard_of_all budgets _ _ hne hall] at h
      cases h
  · intro habsent
    have hne : ¬ budgets.length = 0 := by
      intro h
      rw [List.length_eq_zero.mp h] at habsent
      exact habsent (fun _ h => absurd h (List.not_mem_nil _))
    simp [Dashboard, hne, recentTransactions, flatMapTransactions_of_absent budgets habsent]

theorem Dashboard_recentBudgets (budgets : List Budget)
    (recurringIncome recurringExpenses : List RecurringItem) (o : Overview)
    (ho : Dashboard budgets recurringIncome recurringExpenses = .ok (.overview o)) :
    o.recentBudgets = recentBudgets budgets := by
  unfold Dashboard at ho
  split at ho
  · cases ho
  · split at ho
    · cases ho
    · cases ho
      rfl

/-! ## Lemmas on the heap: every operation keeps the cells it was given -/

theorem alloc_extends (heap : Heap) (array : JsArray) : heap <+: (alloc heap array).1 :=
  ⟨[array], rfl⟩

theorem set_fresh_extends (heap₀ heap : Heap) (ref : Ref) (array : JsArray)
    (hp : heap₀ <+: heap) (hr : heap₀.length ≤ ref) : heap₀ <+: heap.set ref array := by
  obtain ⟨extra, rfl⟩ := hp
  rw [List.set_append, if_neg (by omega)]
  exact ⟨_, rfl⟩

theorem sortBudgetsInPlace_extends (heap₀ heap : Heap) (ref : Ref)
    (hp : heap₀ <+: heap) (hr : heap₀.length ≤ ref) : heap₀ <+: sortBudgetsInPlace heap ref := by
  unfold sortBudgetsInPlace
  split
  · exact set_fresh_extends heap₀ heap ref _ hp hr
  · exact hp

theorem sortTaggedInPlace_extends (heap₀ heap : Heap) (ref : Ref)
    (hp : heap₀ <+: heap) (hr : heap₀.length ≤ ref) : heap₀ <+: sortTaggedInPlace heap ref := by
  unfold sortTaggedInPlace
  split
  · exact set_fresh_extends heap₀ heap ref _ hp hr
  · exact hp

theorem slice_extends (heap : Heap) (ref : Ref) (n : Nat) : heap <+: (slice heap ref n).1 := by
  unfold slice
  split
  · exact alloc_extends _ _
  · exact alloc_extends _ _
  · exact alloc_extends _ _
  · exact alloc_extends _ _
  · exact ⟨[], List.append_nil _⟩

theorem flatMapOnHeap_extends (items : List BudgetObject) :
    ∀ heap : Heap, heap <+: (flatMapOnHeap heap items).1 := by
  induction items with
  | nil =>
    intro heap
    exact ⟨[], List.append_nil _⟩
  | cons budget rest ih =>
    intro heap
    unfold flatMapOnHeap
    split
    · exact ⟨[], List.append_nil _⟩
    · split
      · rename_i transactions _
        have h := (alloc_extends heap
          (.tagged (transactions.map (tagTransaction budget)))).trans (ih _)
        dsimp only
        split
        · rename_i heq
          rw [heq] at h
          exact h
        · rename_i heq
          rw [heq] at h
          exact h
      · exact ⟨[], List.append_nil _⟩

theorem DashboardOnHeap_extends (heap : Heap) (budgets : Ref)
    (recurringIncome recurringExpenses : List RecurringItem) :
    heap <+: (DashboardOnHeap heap budgets recurringIncome recurringExpenses).1 := by
  unfold DashboardOnHeap
  split
  · rename_i items _
    split
    · exact ⟨[], List.append_nil _⟩
    · have h1 : heap <+: sortBudgetsInPlace (alloc heap (.budgets items)).1 (alloc heap (.budgets items)).2 :=
        sortBudgetsInPlace_extends heap _ _ (alloc_extends _ _) (le_refl _)
      have h2 := h1.trans (slice_extends _ (alloc heap (.budgets items)).2 3)
      have h3 := h2.trans (flatMapOnHeap_extends items _)
      dsimp only
      split
      · rename_i heq
        rw [heq] at h3
        exact h3
      · rename_i heap1 flat heq
        rw [heq] at h3
        have h4 : heap <+: sortTaggedInPlace (alloc heap1 (.tagged flat)).1 (alloc heap1 (.tagged flat)).2 :=
          sortTaggedInPlace_extends heap _ _ (h3.trans (alloc_extends _ _)) h3.length_le
        have h5 := h4.trans (slice_extends _ (alloc heap1 (.tagged flat)).2 5)
        exact h5.trans (alloc_extends _ _)
  · exact ⟨[], List.append_nil _⟩

/-! ## The heap embedding computes what the value embedding computes -/

theorem sortInsert_map {α β : Type} (f : α → β) (cmp : β → β → Int) (x : α) (l : List α) :
    sortInsert cmp (f x) (l.map f) = (sortInsert (fun a b => cmp (f a) (f b)) x l).map f := by
  induction l with
  | nil => rfl
  | cons y ys ih =>
    simp only [List.map_cons, sortInsert]
    split
    · rfl
    · rw [ih]
      rfl

theorem sort_map {α β : Type} (f : α → β) (cmp : β → β → Int) (l : List α) :
    sort cmp (l.map f) = (sort (fun a b => cmp (f a) (f b)) l).map f := by
  induction l with
  | nil => rfl
  | cons x xs ih =>
    simp only [List.map_cons, sort]
    rw [ih, sortInsert_map]

theorem getElem?_append_length (heap : Heap) (cell : JsArray) (rest : List JsArray) :
    (heap ++ cell :: rest)[heap.length]? = some cell := by
  rw [List.getElem?_append_right (le_refl _), Nat.sub_self]
  simp

theorem getElem?_append_add (heap rest : List JsArray) (n : Nat) :
    (heap ++ rest)[heap.length + n]? = rest[n]? := by
  rw [List.getElem?_append_right (Nat.le_add_right _ _), Nat.add_sub_cancel_left]

theorem set_append_length (heap : Heap) (cell cell' : JsArray) (rest : List JsArray) :
    (heap ++ cell :: rest).set heap.length cell' = heap ++ cell' :: rest := by
  rw [List.set_append, if_neg (lt_irrefl _), Nat.sub_self]
  rfl

theorem readTransactions_append (heap extra : List JsArray) (hextra : NoTransactions extra)
    (ref : Ref) : readTransactions (heap ++ extra) ref = readTransactions heap ref := by
  unfold readTransactions
  by_cases hlt : ref < heap.length
  · rw [List.getElem?_append_left hlt]
  · rw [List.getElem?_append_right (not_lt.mp hlt), List.getElem?_eq_none (not_lt.mp hlt)]
    cases hcell : extra[ref - heap.length]? with
    | none => rfl
    | some cell =>
      have hmem : cell ∈ extra := List.getElem?_mem hcell
      cases cell with
      | transactions ts => exact absurd rfl (hextra _ hmem ts)
      | budgets _ => rfl
      | tagged _ => rfl
      | chart _ => rfl

theorem snapshot_append (heap extra : List JsArray) (hextra : NoTransactions extra) :
    snapshot (heap ++ extra) = snapshot heap := by
  funext budget
  unfold snapshot
  congr 1
  cases budget.transactions with
  | none => rfl
  | some ref => exact readTransactions_append heap extra hextra ref

theorem flatMapOnHeap_spec (items : List BudgetObject) :
    ∀ heap : Heap, ∃ extra, NoTransactions extra ∧
      (flatMapOnHeap heap items).1 = heap ++ extra ∧
      (flatMapOnHeap heap items).2 = flatMapTransactions (items.map (snapshot heap)) := by
  induction items with
  | nil =>
    intro heap
    exact ⟨[], fun _ h => absurd h (List.not_mem_nil _), (List.append_nil _).symm, rfl⟩
  | cons budget rest ih =>
    intro heap
    have hnil : NoTransactions [] := fun _ h => absurd h (List.not_mem_nil _)
    cases htx : budget.transactions with
    | none =>
      refine ⟨[], hnil, ?_, ?_⟩
      · simp [flatMapOnHeap, htx]
      · simp [flatMapOnHeap, flatMapTransactions, snapshot, htx]
    | some ref =>
      cases hcell : heap[ref]? with
      | none =>
        refine ⟨[], hnil, ?_, ?_⟩
        · simp [flatMapOnHeap, htx, hcell]
        · simp [flatMapOnHeap, flatMapTransactions, snapshot, readTransactions, htx, hcell]
      | some cell =>
        cases cell with
        | budgets _ =>
          refine ⟨[], hnil, ?_, ?_⟩
          · simp [flatMapOnHeap, htx, hcell]
          · simp [flatMapOnHeap, flatMapTransactions, snapshot, readTransactions, htx, hcell]
        | tagged _ =>
          refine ⟨[], hnil, ?_, ?_⟩
          · simp [flatMapOnHeap, htx, hcell]
          · simp [flatMapOnHeap, flatMapTransactions, snapshot, readTransactions, htx, hcell]
        | chart _ =>
          refine ⟨[], hnil, ?_, ?_⟩
          · simp [flatMapOnHeap, htx, hcell]
          · simp [flatMapOnHeap, flatMapTransactions, snapshot, readTransactions, htx, hcell]
        | transactions ts =>
          have hone : NoTransactions [JsArray.tagged (ts.map (tagTransaction budget))] := by
            intro cell hmem transactions
            rw [List.mem_singleton] at hmem
            subst hmem
            exact fun h => JsArray.noConfusion h
          obtain ⟨extra, hextra, h1, h2⟩ := ih (heap ++ [.tagged (ts.map (tagTransaction budget))])
          rw [snapshot_append heap _ hone] at h2
          have hstep : flatMapOnHeap heap (budget :: rest)
              = ((flatMapOnHeap (heap ++ [.tagged (ts.map (tagTransaction budget))]) rest).1,
                 match (flatMapOnHeap (heap ++ [.tagged (ts.map (tagTransaction budget))]) rest).2 with
                 | .error e => .error e
                 | .ok tail => .ok (ts.map (tagTransaction budget) ++ tail)) := by
            rw [flatMapOnHeap]
            simp only [htx, hcell, alloc]
            split <;> rename_i heq <;> rw [heq]
          refine ⟨.tagged (ts.map (tagTransaction budget)) :: extra, ?_, ?_, ?_⟩
          · intro cell hmem
            rcases List.mem_cons.mp hmem with rfl | hmem
            · exact fun _ h => JsArray.noConfusion h
            · exact hextra cell hmem
          · rw [hstep, h1]
            simp
          · rw [hstep, h2]
            simp only [List.map_cons, flatMapTransactions]
            have hs : (snapshot heap budget).transactions = some ts := by
              simp [snapshot, readTransactions, htx, hcell]
            rw [hs]
            rfl

theorem sortBudgetsInPlace_fresh (heap : Heap) (items : List BudgetObject) :
    sortBudgetsInPlace (heap ++ [.budgets items]) heap.length
      = heap ++ [.budgets (sort (fun a b => b.id - a.id) items)] := by
  unfold sortBudgetsInPlace
  rw [getElem?_append_length]
  exact set_append_length heap _ _ []

theorem sortTaggedInPlace_fresh (heap : Heap) (items : List TaggedTransaction) :
    sortTaggedInPlace (heap ++ [.tagged items]) heap.length
      = heap ++ [.tagged (sort (fun a b => b.createdAt - a.createdAt) items)] := by
  unfold sortTaggedInPlace
  rw [getElem?_append_length]
  exact set_append_length heap _ _ []

theorem slice_fresh_budgets (heap : Heap) (items : List BudgetObject) (n : Nat) :
    slice (heap ++ [.budgets items]) heap.length n
      = (heap ++ [.budgets items, .budgets (items.take n)], heap.length + 1) := by
  unfold slice
  rw [getElem?_append_length]
  simp [alloc]

theorem slice_fresh_tagged (heap : Heap) (items : List TaggedTransaction) (n : Nat) :
    slice (heap ++ [.tagged items]) heap.length n
      = (heap ++ [.tagged items, .tagged (items.take n)], heap.length + 1) := by
  unfold slice
  rw [getElem?_append_length]
  simp [alloc]

theorem analyticsOnHeap_eq (heap : Heap) (items : List BudgetObject)
    (recurringIncome recurringExpenses : List RecurringItem) :
    analyticsOnHeap heap items recurringIncome recurringExpenses
      = analytics (items.map (snapshot heap)) recurringIncome recurringExpenses := by
  have hlen : ∀ budget : BudgetObject,
      transactionsLength (snapshot heap budget) = transactionsLengthOnHeap heap budget := by
    intro budget
    unfold transactionsLength transactionsLengthOnHeap snapshot readTransactions
    cases budget.transactions with
    | none => rfl
    | some ref =>
      simp only [Option.bind]
      cases heap[ref]? with
      | none => rfl
      | some cell => cases cell <;> rfl
  unfold analyticsOnHeap analytics
  congr 1
  · simp [totalBudget, List.foldl_map, snapshot]
  · simp [totalSpent, List.foldl_map, snapshot]
  · simp [totalTransactions, List.foldl_map, hlen]
  · simp
  · simp [completedBudgets, List.filter_map, snapshot, Function.comp_def]

theorem DashboardOnHeap_eq (heap : Heap) (budgets : Ref) (items : List BudgetObject)
    (recurringIncome recurringExpenses : List RecurringItem)
    (hb : heap[budgets]? = some (.budgets items)) (hne : items ≠ []) :
    DashboardOnHeap heap budgets recurringIncome recurringExpenses
      = match flatMapOnHeap (heap ++ [.budgets (sort (fun a b => b.id - a.id) items),
            .budgets ((sort (fun a b => b.id - a.id) items).take 3)]) items with
        | (heap1, .error e) => (heap1, .error e)
        | (heap1, .ok flat) =>
          (heap1 ++ [.tagged (sort (fun a b => b.createdAt - a.createdAt) flat),
              .tagged ((sort (fun a b => b.createdAt - a.createdAt) flat).take 5),
              .chart (chartData items)],
            .ok (.overview
              { recentBudgets := heap.length + 1
                recentTransactions := heap1.length + 1
                analytics := analyticsOnHeap
                  (heap1 ++ [.tagged (sort (fun a b => b.createdAt - a.createdAt) flat),
                    .tagged ((sort (fun a b => b.createdAt - a.createdAt) flat).take 5)])
                  items recurringIncome recurringExpenses
                chartData := heap1.length + 2 })) := by
  have hlen : ¬ items.length = 0 := fun h => hne (List.length_eq_zero.mp h)
  unfold DashboardOnHeap
  simp only [hb, hlen, if_false]
  simp only [alloc, sortBudgetsInPlace_fresh, slice_fresh_budgets]
  split
  · rfl
  · simp only [sortTaggedInPlace_fresh, slice_fresh_tagged]
    simp

/-- The run on the heap and the run on values agree: reading the result of
`DashboardOnHeap` back from the final heap gives what `Dashboard` computes from the
budgets read from the initial heap, and one throws exactly when the other does. -/
theorem DashboardOnHeap_refines (heap : Heap) (budgets : Ref) (items : List BudgetObject)
    (recurringIncome recurringExpenses : List RecurringItem)
    (hb : heap[budgets]? = some (.budgets items)) :
    (DashboardOnHeap heap budgets recurringIncome recurringExpenses).2.map
        (snapshotView (DashboardOnHeap heap budgets recurringIncome recurringExpenses).1)
      = (Dashboard (items.map (snapshot heap)) recurringIncome recurringExpenses).map some := by
  by_cases hne : items = []
  · subst hne
    simp [DashboardOnHeap, hb, Dashboard, snapshotView, Except.map]
  · rw [DashboardOnHeap_eq heap budgets items _ _ hb hne]
    have hpair : NoTransactions [JsArray.budgets (sort (fun a b => b.id - a.id) items),
        JsArray.budgets ((sort (fun a b => b.id - a.id) items).take 3)] := by
      intro cell hmem transactions
      simp only [List.mem_cons, List.mem_singleton, List.not_mem_nil, or_false] at hmem
      rcases hmem with rfl | rfl <;> exact fun h => JsArray.noConfusion h
    obtain ⟨extra, hextra, h1, h2⟩ := flatMapOnHeap_spec items
      (heap ++ [.budgets (sort (fun a b => b.id - a.id) items),
        .budgets ((sort (fun a b => b.id - a.id) items).take 3)])
    rw [snapshot_append heap _ hpair] at h2
    have hlen : ¬ (items.map (snapshot heap)).length = 0 := by
      simpa using hne
    rcases hfm : flatMapOnHeap (heap ++ [.budgets (sort (fun a b => b.id - a.id) items),
        .budgets ((sort (fun a b => b.id - a.id) items).take 3)]) items with ⟨heap1, res⟩
    rw [hfm] at h1 h2
    simp only at h1 h2
    cases res with
    | error e =>
      rw [hfm]
      simp [Dashboard, recentTransactions, ← h2, hne, Except.map]
    | ok flat =>
      have htail : NoTransactions
          ([JsArray.budgets (sort (fun a b => b.id - a.id) items),
            JsArray.budgets ((sort (fun a b => b.id - a.id) items).take 3)] ++ extra ++
           [JsArray.tagged (sort (fun a b => b.createdAt - a.createdAt) flat),
            JsArray.tagged ((sort (fun a b => b.createdAt - a.createdAt) flat).take 5),
            JsArray.chart (chartData items)]) := by
        intro cell hmem transactions
        simp only [List.mem_append, List.mem_cons, List.mem_singleton, List.not_mem_nil,
          or_false] at hmem
        rcases hmem with ((rfl | rfl) | hmem) | rfl | rfl | rfl
        · exact fun h => JsArray.noConfusion h
        · exact fun h => JsArray.noConfusion h
        · exact hextra cell hmem transactions
        · exact fun h => JsArray.noConfusion h
        · exact fun h => JsArray.noConfusion h
        · exact fun h => JsArray.noConfusion h
      have hmid : NoTransactions
          ([JsArray.budgets (sort (fun a b => b.id - a.id) items),
            JsArray.budgets ((sort (fun a b => b.id - a.id) items).take 3)] ++ extra ++
           [JsArray.tagged (sort (fun a b => b.createdAt - a.createdAt) flat),
            JsArray.tagged ((sort (fun a b => b.createdAt - a.createdAt) flat).take 5)]) := by
        intro cell hmem transactions
        apply htail cell _ transactions
        simp only [List.mem_append, List.mem_cons, List.mem_singleton, List.not_mem_nil,
          or_false] at hmem ⊢
        rcases hmem with h | h | h
        · exact Or.inl h
        · exact Or.inr (Or.inl h)
        · exact Or.inr (Or.inr (Or.inl h))
      have hsnapFinal := snapshot_append heap _ htail
      have hsnapMid := snapshot_append heap _ hmid
      have hrecent : (heap1 ++
            [JsArray.tagged (sort (fun a b => b.createdAt - a.createdAt) flat),
             JsArray.tagged ((sort (fun a b => b.createdAt - a.createdAt) flat).take 5),
             JsArray.chart (chartData items)])[heap.length + 1]?
          = some (.budgets ((sort (fun a b => b.id - a.id) items).take 3)) := by
        rw [h1]
        simp only [List.append_assoc, List.cons_append, List.nil_append]
        rw [getElem?_append_add]
        simp
      have hfinal : heap1 ++
            [JsArray.tagged (sort (fun a b => b.createdAt - a.createdAt) flat),
             JsArray.tagged ((sort (fun a b => b.createdAt - a.createdAt) flat).take 5),
             JsArray.chart (chartData items)]
          = heap ++ ([JsArray.budgets (sort (fun a b => b.id - a.id) items),
            JsArray.budgets ((sort (fun a b => b.id - a.id) items).take 3)] ++ extra ++
           [JsArray.tagged (sort (fun a b => b.createdAt - a.createdAt) flat),
            JsArray.tagged ((sort (fun a b => b.createdAt - a.createdAt) flat).take 5),
            JsArray.chart (chartData items)]) := by
        rw [h1]
        simp
      have hmidEq : heap1 ++
            [JsArray.tagged (sort (fun a b => b.createdAt - a.createdAt) flat),
             JsArray.tagged ((sort (fun a b => b.createdAt - a.createdAt) flat).take 5)]
          = heap ++ ([JsArray.budgets (sort (fun a b => b.id - a.id) items),
            JsArray.budgets ((sort (fun a b => b.id - a.id) items).take 3)] ++ extra ++
           [JsArray.tagged (sort (fun a b => b.createdAt - a.createdAt) flat),
            JsArray.tagged ((sort (fun a b => b.createdAt - a.createdAt) flat).take 5)]) := by
        rw [h1]
        simp
      have htx : (heap1 ++
            [JsArray.tagged (sort (fun a b => b.createdAt - a.createdAt) flat),
             JsArray.tagged ((sort (fun a b => b.createdAt - a.createdAt) flat).take 5),
             JsArray.chart (chartData items)])[heap1.length + 1]?
          = some (.tagged ((sort (fun a b => b.createdAt - a.createdAt) flat).take 5)) := by
        rw [getElem?_append_add]
        simp
      have hchart : (heap1 ++
            [JsArray.tagged (sort (fun a b => b.createdAt - a.createdAt) flat),
             JsArray.tagged ((sort (fun a b => b.createdAt - a.createdAt) flat).take 5),
             JsArray.chart (chartData items)])[heap1.length + 2]?
          = some (.chart (chartData items)) := by
        rw [getElem?_append_add]
        simp
      have hview : snapshotView (heap1 ++
            [JsArray.tagged (sort (fun a b => b.createdAt - a.createdAt) flat),
             JsArray.tagged ((sort (fun a b => b.createdAt - a.createdAt) flat).take 5),
             JsArray.chart (chartData items)])
          (.overview
            { recentBudgets := heap.length + 1
              recentTransactions := heap1.length + 1
              analytics := analyticsOnHeap
                (heap1 ++ [.tagged (sort (fun a b => b.createdAt - a.createdAt) flat),
                  .tagged ((sort (fun a b => b.createdAt - a.createdAt) flat).take 5)])
                items recurringIncome recurringExpenses
              chartData := heap1.length + 2 })
          = some (.overview
            { recentBudgets := recentBudgets (items.map (snapshot heap))
              recentTransactions := (sort (fun a b => b.createdAt - a.createdAt) flat).take 5
              analytics := analytics (items.map (snapshot heap)) recurringIncome recurringExpenses
              chartData := chartData (items.map (snapshot heap)) }) := by
        simp only [snapshotView, hrecent, htx, hchart]
        rw [analyticsOnHeap_eq, hmidEq, hsnapMid, hfinal, hsnapFinal]
        have h3 : List.map (snapshot heap) ((sort (fun a b => b.id - a.id) items).take 3)
            = recentBudgets (items.map (snapshot heap)) := by
          unfold recentBudgets
          rw [sort_map, List.map_take]
          rfl
        have h4 : chartData items = chartData (items.map (snapshot heap)) := by
          simp [chartData, snapshot]
        rw [h3, ← h4]
      rw [hfm]
      simp only [Except.map, hview]
      simp [Dashboard, recentTransactions, ← h2, hne]

/-! ## Lemmas on binary64 comparison -/

theorem Double.signed_cast (negative : Bool) (mantissa : Nat) (exponent base : Int)
    (h : base ≤ exponent) :
    ((Double.signed negative mantissa (exponent - base) : Int) : ℚ) * (2 : ℚ) ^ base
      = (if negative then -1 else 1) * (mantissa : ℚ) * (2 : ℚ) ^ exponent := by
  have hnn : 0 ≤ exponent - base := by omega
  have hpow : ((2 : ℚ) ^ (exponent - base).toNat) * (2 : ℚ) ^ base = (2 : ℚ) ^ exponent := by
    rw [← zpow_natCast, ← zpow_add₀ (by norm_num : (2 : ℚ) ≠ 0), Int.toNat_of_nonneg hnn]
    congr 1
    omega
  unfold Double.signed
  cases negative
  · simp only [Bool.false_eq_true, if_false, one_mul]
    push_cast
    rw [mul_assoc, hpow]
  · simp only [if_true]
    push_cast
    rw [neg_mul, mul_assoc, hpow]
    ring

/-- On finite values `>=` is the order of the exact values. -/
theorem Double.ge_iff (a b : Double) (x y : ℚ) (ha : a.toRat = some x) (hb : b.toRat = some y) :
    Double.ge a b = true ↔ y ≤ x := by
  cases a with
  | nan => cases ha
  | infinity s => cases ha
  | finite s m e =>
    cases b with
    | nan => cases hb
    | infinity t => cases hb
    | finite t n f =>
      simp only [Double.toRat, Option.some.injEq] at ha hb
      have hpe : (0 : ℚ) < (2 : ℚ) ^ e := zpow_pos (by norm_num) e
      have hpf : (0 : ℚ) < (2 : ℚ) ^ f := zpow_pos (by norm_num) f
      unfold Double.ge
      by_cases hm : m = 0
      · subst hm
        simp only [if_true, decide_eq_true_eq]
        rw [← ha, ← hb]
        simp only [Nat.cast_zero, mul_zero, zero_mul]
        by_cases hn : n = 0
        · subst hn
          simp
        · have hnpos : (0 : ℚ) < (n : ℚ) := by exact_mod_cast Nat.pos_of_ne_zero hn
          cases t
          · simp only [hn, Bool.false_eq_true, or_self, if_false, one_mul, false_iff, not_le]
            exact mul_pos hnpos hpf
          · simp only [or_true, if_true, true_iff]
            have := mul_pos hnpos hpf
            linarith
      · have hmpos : (0 : ℚ) < (m : ℚ) := by exact_mod_cast Nat.pos_of_ne_zero hm
        by_cases hn : n = 0
        · subst hn
          simp only [hm, if_false, if_true, decide_eq_true_eq]
          rw [← ha, ← hb]
          simp only [Nat.cast_zero, mul_zero, zero_mul]
          cases s
          · simp only [Bool.false_eq_true, if_false, one_mul, true_iff]
            exact le_of_lt (mul_pos hmpos hpe)
          · simp only [if_true, Bool.true_eq_false, false_iff, not_le]
            have := mul_pos hmpos hpe
            linarith
        · simp only [hm, hn, if_false, decide_eq_true_eq]
          have h1 := Double.signed_cast s m e (min e f) (min_le_left e f)
          have h2 := Double.signed_cast t n f (min e f) (min_le_right e f)
          have hp : (0 : ℚ) < (2 : ℚ) ^ (min e f) := zpow_pos (by norm_num) _
          rw [← ha, ← hb, ← h1, ← h2]
          rw [mul_le_mul_right hp]
          exact Int.cast_le.symm

theorem Double.ge_self (a : Double) (ha : a ≠ .nan) : Double.ge a a = true := by
  cases a with
  | nan => exact absurd rfl ha
  | infinity s => cases s <;> rfl
  | finite s m e =>
    unfold Double.ge
    by_cases hm : m = 0
    · simp [hm]
    · simp [hm]

/-! ## Binary64 arithmetic at work -/

/-- The sum 0.1 + 0.2 is 0.30000000000000004, not the literal 0.3. -/
theorem Double.tenth_add_fifth :
    (0.1 : Double) + 0.2 = .finite false 5404319552844596 (-54) ∧ (0.1 : Double) + 0.2 ≠ 0.3 := by
  decide

/-- Adding 1 to 2 ^ 53 rounds back to 2 ^ 53. -/
theorem Double.two_pow_53_add_one : (9007199254740992 : Double) + 1 = 9007199254740992 := by
  decide

/-- The quotient 100 / 12 is 8.333333333333334. -/
theorem Double.hundred_div_twelve :
    (100 : Double) / 12 = .finite false 4691249611844267 (-49) := by
  decide

/-- Addition is not associative: the reductions add from the left. -/
theorem Double.add_left_to_right :
    sumLeft [1e16, 1, 1] = 1e16 ∧ (1e16 : Double) + ((1 : Double) + 1) ≠ 1e16 := by
  decide

/-! ## The claims -/

/-- C1 (the code departs from it): a budget without a `transactions` list makes the
component throw a `TypeError` at the inner `map` of line 42, although the reduction of
line 54 reads the same absent list as empty and counts 0 for it. -/
theorem absent_transactions_throws :
    Dashboard [bareBudget] [] [] = .error .typeError ∧ totalTransactions [bareBudget] = 0 := by
  constructor <;> rfl

/-- C2 as stated fails: for one active yearly item of amount 100 the code computes the
binary64 value 8.333333333333334 (`4691249611844267 * 2 ^ (-49)`), which is not the
exact sum 100/12 = 25/3 of the normalized amounts. -/
theorem monthly_total_not_exact :
    monthlyIncome yearlyHundred = .finite false 4691249611844267 (-49) ∧
    exactMonthly yearlyHundred = some (25 / 3) ∧
    (monthlyIncome yearlyHundred).toRat ≠ exactMonthly yearlyHundred := by
  have h1 : monthlyIncome yearlyHundred = .finite false 4691249611844267 (-49) := by decide
  have hamount : (100 : Double) = .finite false 7036874417766400 (-46) := by decide
  have h2 : exactMonthly yearlyHundred = some (25 / 3) := by
    simp +decide only [exactMonthly, yearlyHundred, exactNormalize, hamount, Double.toRat,
      if_true, if_false]
    norm_num
  refine ⟨h1, h2, ?_⟩
  rw [h1, h2]
  simp only [Double.toRat]
  norm_num

/-- C2 as amended: the monthly total of a list of recurring items, income or expense, is
the binary64 sum, added left to right from 0, over the active items only of the
normalized amount (the binary64 product `A * 4` if weekly, the binary64 quotient
`A / 12` if yearly, otherwise `A`); inactive items are skipped; in the scenario of the
specification the totals are 1000 and 560. -/
theorem monthly_totals_normalized (items : List RecurringItem) :
    monthlyIncome items = sumLeft ((items.filter (fun item => item.isActive)).map normalize) ∧
    monthlyExpenses items = sumLeft ((items.filter (fun item => item.isActive)).map normalize) ∧
    monthlyIncome items = monthlyIncome (items.filter (fun item => item.isActive)) ∧
    monthlyExpenses items = monthlyExpenses (items.filter (fun item => item.isActive)) ∧
    (∀ A active, normalize { amount := A, frequency := "weekly", isActive := active } = A * 4) ∧
    (∀ A active, normalize { amount := A, frequency := "yearly", isActive := active } = A / 12) ∧
    (∀ A active frequency, frequency ≠ "weekly" → frequency ≠ "yearly" →
      normalize { amount := A, frequency := frequency, isActive := active } = A) ∧
    (∃ o, Dashboard scenarioBudgets scenarioIncome scenarioExpenses = .ok (.overview o) ∧
      o.analytics.monthlyIncome = 1000 ∧ o.analytics.monthlyExpenses = 560) := by
  have hstep : ∀ (sum : Double) (item : RecurringItem),
      (if item.frequency = "weekly" then sum + (item.amount * 4)
        else if item.frequency = "yearly" then sum + (item.amount / 12)
        else sum + item.amount) = sum + normalize item := by
    intro sum item
    unfold normalize
    split_ifs <;> rfl
  have hfold : ∀ l : List RecurringItem,
      l.foldl (fun sum item =>
        let amount := item.amount
        if item.frequency = "weekly" then sum + (amount * 4)
        else if item.frequency = "yearly" then sum + (amount / 12)
        else sum + amount) 0 = sumLeft (l.map normalize) := by
    intro l
    simp only [hstep]
    unfold sumLeft
    rw [List.foldl_map]
  refine ⟨hfold _, hfold _, ?_, ?_, ?_, ?_, ?_, ?_⟩
  · simp [monthlyIncome, List.filter_filter]
  · simp [monthlyExpenses, List.filter_filter]
  · intro A active
    rfl
  · intro A active
    rfl
  · intro A active frequency h1 h2
    simp [normalize, h1, h2]
  · exact ⟨_, rfl, by decide, by decide⟩

/-- Witness of C2 on the sample items: 40 + 10 + 7 + 5 = 62, the inactive item skipped,
and an item of another frequency counts with its plain amount. -/
theorem monthly_totals_normalized_witness :
    monthlyIncome sampleRecurring = 62 ∧ monthlyExpenses sampleRecurring = 62 ∧
    normalize { amount := 5, frequency := "daily", isActive := true } = 5 := by
  have h := monthly_totals_normalized sampleRecurring
  refine ⟨?_, ?_, h.2.2.2.2.2.2.1 5 true "daily" (by decide) (by decide)⟩
  · rw [h.1]
    decide
  · rw [h.2.1]
    decide

/-- C3 as stated fails: for two budgets of amounts 0.1 and 0.2 the code computes
`totalBudget` 0.30000000000000004 (`5404319552844596 * 2 ^ (-54)`), which is not the
exact sum of the two amounts. -/
theorem totalBudget_not_exact :
    ∃ o, Dashboard dimeBudgets [] [] = .ok (.overview o) ∧
      o.analytics.totalBudget = .finite false 5404319552844596 (-54) ∧
      o.analytics.totalBudget.toRat ≠ exactSum (dimeBudgets.map (fun budget => budget.amount)) := by
  have h1 : totalBudget dimeBudgets = .finite false 5404319552844596 (-54) := by decide
  have ha : (0.1 : Double) = .finite false 7205759403792794 (-56) := by decide
  have hb : (0.2 : Double) = .finite false 7205759403792794 (-55) := by decide
  refine ⟨_, rfl, h1, ?_⟩
  show (totalBudget dimeBudgets).toRat ≠ _
  rw [h1]
  simp only [dimeBudgets, List.map, exactSum, ha, hb, Double.toRat]
  norm_num

/-- C3 as amended: for a non-empty list of budgets that all carry a transactions list,
the summary is produced with `totalBudget` the binary64 sum of the amounts added left
to right from 0, `totalSpent` the same sum of the `spent` fields and
`totalTransactions` the sum of the lengths of the transactions lists; in the scenario
of the specification these are 300, 240 and 1. -/
theorem summary_totals (budgets : List Budget) (recurringIncome recurringExpenses : List RecurringItem)
    (hne : budgets ≠ []) (hall : AllHaveTransactions budgets) :
    (∃ o, Dashboard budgets recurringIncome recurringExpenses = .ok (.overview o) ∧
      o.analytics.totalBudget = sumLeft (budgets.map (fun budget => budget.amount)) ∧
      o.analytics.totalSpent = sumLeft (budgets.map (fun budget => budget.spent)) ∧
      o.analytics.totalTransactions
        = (budgets.map (fun budget => (transactionsOrEmpty budget).length)).sum) ∧
    (∃ o, Dashboard scenarioBudgets scenarioIncome scenarioExpenses = .ok (.overview o) ∧
      o.analytics.totalBudget = 300 ∧ o.analytics.totalSpent = 240 ∧
      o.analytics.totalTransactions = 1) := by
  constructor
  · exact ⟨_, Dashboard_of_all budgets _ _ hne hall, totalBudget_eq_sumLeft budgets,
      totalSpent_eq_sumLeft budgets, totalTransactions_eq_sum budgets⟩
  · exact ⟨_, rfl, by decide, by decide, rfl⟩

/-- Witness of C3 on the four sample budgets: totals 1460, 1270 and 7. -/
theorem summary_totals_witness :
    sampleBudgets ≠ [] ∧ AllHaveTransactions sampleBudgets ∧
    ∃ o, Dashboard sampleBudgets scenarioIncome scenarioExpenses = .ok (.overview o) ∧
      o.analytics.totalBudget = 1460 ∧ o.analytics.totalSpent = 1270 ∧
      o.analytics.totalTransactions = 7 := by
  obtain ⟨o, ho, h1, h2, h3⟩ :=
    (summary_totals sampleBudgets scenarioIncome scenarioExpenses (by decide) (by decide)).1
  refine ⟨by decide, by decide, o, ho, ?_, ?_, ?_⟩
  · rw [h1]
    decide
  · rw [h2]
    decide
  · rw [h3]
    rfl

/-- C4 (the code departs from it on a budget without a transactions list, the defect
of C1): there the component throws and produces no summary. On every non-empty list
of budgets that all carry a transactions list the summary is produced with
`completedBudgets` the number of budgets whose `spent >= amount`, at most
`totalBudgets`; `>=` is the order of the exact values, and a budget that spent exactly
its amount counts. -/
theorem completedBudgets_count (budgets : List Budget)
    (recurringIncome recurringExpenses : List RecurringItem) :
    Dashboard [bareBudget] recurringIncome recurringExpenses = .error .typeError ∧
    (budgets ≠ [] → AllHaveTransactions budgets →
      ∃ o, Dashboard budgets recurringIncome recurringExpenses = .ok (.overview o) ∧
        o.analytics.completedBudgets
          = budgets.countP (fun budget => Double.ge budget.spent budget.amount) ∧
        o.analytics.completedBudgets ≤ o.analytics.totalBudgets) ∧
    (∀ (a b : Double) (x y : ℚ), a.toRat = some x → b.toRat = some y →
      (Double.ge a b = true ↔ y ≤ x)) ∧
    (∀ budget : Budget, budget.spent = budget.amount → budget.amount ≠ .nan →
      completedBudgets [budget] = 1) := by
  refine ⟨rfl, ?_, Double.ge_iff, ?_⟩
  · intro hne hall
    refine ⟨_, Dashboard_of_all budgets _ _ hne hall, ?_, ?_⟩
    · simp [analytics, completedBudgets, List.countP_eq_length_filter]
    · exact List.length_filter_le _ _
  · intro budget h hnan
    simp [completedBudgets, List.filter_cons, h, Double.ge_self _ hnan]

/-- Witness of C4 on the sample: two of the four budgets are completed, one of them
with `spent` equal to `amount`. -/
theorem completedBudgets_count_witness :
    sampleBudgets ≠ [] ∧ AllHaveTransactions sampleBudgets ∧
    ∃ o, Dashboard sampleBudgets [] [] = .ok (.overview o) ∧
      o.analytics.completedBudgets = 2 ∧ o.analytics.totalBudgets = 4 := by
  obtain ⟨o, ho, h1, _⟩ :=
    (completedBudgets_count sampleBudgets [] []).2.1 (by decide) (by decide)
  refine ⟨by decide, by decide, o, ho, ?_, ?_⟩
  · rw [h1]
    decide
  · have := Dashboard_of_all sampleBudgets [] [] (by decide) (by decide)
    rw [this] at ho
    cases ho
    rfl

/-- C5 (the code departs from it on a budget without a transactions list, the defect
of C1): there the component throws and produces no `recentTransactions`. On every
non-empty list of budgets that all carry a transactions list `recentTransactions` is
produced with length `min 5 T`, where `T` is `summary.totalTransactions`, the number of
transactions of all budgets, and its `createdAt` values are non-increasing. -/
theorem recentTransactions_length_sorted (budgets : List Budget)
    (recurringIncome recurringExpenses : List RecurringItem) :
    Dashboard [bareBudget] recurringIncome recurringExpenses = .error .typeError ∧
    (budgets ≠ [] → AllHaveTransactions budgets →
      ∃ o, Dashboard budgets recurringIncome recurringExpenses = .ok (.overview o) ∧
        o.recentTransactions.length = min 5 o.analytics.totalTransactions ∧
        o.analytics.totalTransactions
          = (budgets.map (fun budget => (transactionsOrEmpty budget).length)).sum ∧
        o.recentTransactions.Pairwise (fun a b => b.createdAt ≤ a.createdAt)) := by
  refine ⟨rfl, ?_⟩
  intro hne hall
  refine ⟨_, Dashboard_of_all budgets _ _ hne hall, ?_, totalTransactions_eq_sum budgets, ?_⟩
  · simp [analytics, List.length_take, sort_length, flattened_length]
  · exact (sort_pairwise (fun t : TaggedTransaction => t.createdAt) (flattened budgets)).sublist
      (List.take_sublist 5 _)

/-- Witness of C5 on the sample: five of the seven transactions, newest first. -/
theorem recentTransactions_length_sorted_witness :
    sampleBudgets ≠ [] ∧ AllHaveTransactions sampleBudgets ∧
    ∃ o, Dashboard sampleBudgets [] [] = .ok (.overview o) ∧
      o.recentTransactions.length = 5 ∧ o.analytics.totalTransactions = 7 ∧
      o.recentTransactions.Pairwise (fun a b => b.createdAt ≤ a.createdAt) := by
  obtain ⟨o, ho, h1, h2, h3⟩ :=
    (recentTransactions_length_sorted sampleBudgets [] []).2 (by decide) (by decide)
  have h7 : o.analytics.totalTransactions = 7 := by
    rw [h2]
    rfl
  refine ⟨by decide, by decide, o, ho, ?_, h7, h3⟩
  rw [h1, h7]
  rfl

/-- C6 (the code departs from it on a budget without a transactions list, the defect
of C1): there the component throws and produces no `recentTransactions`. On every
non-empty list of budgets that all carry a transactions list `recentTransactions` is
the first five elements of the stable descending sort by `createdAt` of the flattened
list, in which each transaction keeps its fields and carries its parent's name and id
(there is exactly one such sort); transactions of equal `createdAt` appear in their
order in the flattened list. -/
theorem recentTransactions_stable_sort (budgets : List Budget)
    (recurringIncome recurringExpenses : List RecurringItem) :
    Dashboard [bareBudget] recurringIncome recurringExpenses = .error .typeError ∧
    (budgets ≠ [] → AllHaveTransactions budgets →
      ∃ o, Dashboard budgets recurringIncome recurringExpenses = .ok (.overview o) ∧
        (∃ s, IsStableSortDesc (fun t => t.createdAt) (flattened budgets) s ∧
          (∀ s', IsStableSortDesc (fun t => t.createdAt) (flattened budgets) s' → s' = s) ∧
          o.recentTransactions = s.take 5) ∧
        ∀ k : Int, o.recentTransactions.filter (fun t => decide (t.createdAt = k))
          <+: (flattened budgets).filter (fun t => decide (t.createdAt = k))) := by
  refine ⟨rfl, ?_⟩
  intro hne hall
  have hsort := sort_isStableSortDesc (fun t : TaggedTransaction => t.createdAt) (flattened budgets)
  refine ⟨_, Dashboard_of_all budgets _ _ hne hall, ⟨_, hsort, ?_, rfl⟩, ?_⟩
  · intro s' hs'
    exact isStableSortDesc_unique _ _ _ _ hs' hsort
  · intro k
    have hpre : (sort (fun a b => b.createdAt - a.createdAt) (flattened budgets)).take 5
        <+: sort (fun a b => b.createdAt - a.createdAt) (flattened budgets) :=
      ⟨_, List.take_append_drop 5 _⟩
    have h := List.IsPrefix.filter (fun t : TaggedTransaction => decide (t.createdAt = k)) hpre
    rw [sort_filter (fun t : TaggedTransaction => t.createdAt) k] at h
    exact h

/-- Witness of C6 on the sample: of the three transactions stamped 80 the one of the
first budget comes first, then the one of the second, then the one of the third; each
row keeps its description and amount and carries its parent's name and id. -/
theorem recentTransactions_stable_sort_witness :
    sampleBudgets ≠ [] ∧ AllHaveTransactions sampleBudgets ∧
    ∃ o, Dashboard sampleBudgets [] [] = .ok (.overview o) ∧
      o.recentTransactions
        = [ { id := 23, description := "coffee", amount := 4, createdAt := 90,
              budgetName := "Food", budgetId := 7 },
            { id := 12, description := "february", amount := 450, createdAt := 80,
              budgetName := "Rent", budgetId := 3 },
            { id := 21, description := "market", amount := 70, createdAt := 80,
              budgetName := "Food", budgetId := 7 },
            { id := 31, description := "train", amount := 250, createdAt := 80,
              budgetName := "Travel", budgetId := 3 },
            { id := 11, description := "january", amount := 450, createdAt := 50,
              budgetName := "Rent", budgetId := 3 } ] := by
  obtain ⟨o, ho, ⟨s, hs, _, h1⟩, _⟩ :=
    (recentTransactions_stable_sort sampleBudgets [] []).2 (by decide) (by decide)
  refine ⟨by decide, by decide, o, ho, ?_⟩
  have hs2 : s = sort (fun a b => b.createdAt - a.createdAt) (flattened sampleBudgets) :=
    isStableSortDesc_unique _ _ _ _ hs (sort_isStableSortDesc _ _)
  rw [h1, hs2]
  decide

/-- C7: `recentBudgets` has length `min 3 (length budgets)`, its ids are non-increasing,
and budgets of equal id keep their relative order in the input; it is what the
component shows whenever it renders the overview. -/
theorem recentBudgets_length_sorted_stable (budgets : List Budget)
    (recurringIncome recurringExpenses : List RecurringItem) :
    (recentBudgets budgets).length = min 3 budgets.length ∧
    (recentBudgets budgets).Pairwise (fun a b => b.id ≤ a.id) ∧
    (∀ k : Int, (recentBudgets budgets).filter (fun b => decide (b.id = k))
      <+: budgets.filter (fun b => decide (b.id = k))) ∧
    (∀ o, Dashboard budgets recurringIncome recurringExpenses = .ok (.overview o) →
      o.recentBudgets = recentBudgets budgets) := by
  refine ⟨?_, ?_, ?_, ?_⟩
  · simp [recentBudgets, List.length_take, sort_length]
  · exact (sort_pairwise (fun b : Budget => b.id) budgets).sublist (List.take_sublist 3 _)
  · intro k
    have hpre : recentBudgets budgets <+: sort (fun a b => b.id - a.id) budgets :=
      ⟨_, List.take_append_drop 3 _⟩
    have h := List.IsPrefix.filter (fun b : Budget => decide (b.id = k)) hpre
    rw [sort_filter (fun b : Budget => b.id) k] at h
    exact h
  · intro o ho
    exact Dashboard_recentBudgets budgets _ _ o ho

/-- Witness of C7 on the sample: ids 7, 5, 3, and of the two budgets of id 3 the one
that stands first in the input. -/
theorem recentBudgets_length_sorted_stable_witness :
    ∃ o, Dashboard sampleBudgets [] [] = .ok (.overview o) ∧
      o.recentBudgets.map (fun b => (b.id, b.name)) = [(7, "Food"), (5, "Books"), (3, "Rent")] := by
  refine ⟨_, Dashboard_of_all sampleBudgets [] [] (by decide) (by decide), ?_⟩
  rw [(recentBudgets_length_sorted_stable sampleBudgets [] []).2.2.2 _
    (Dashboard_of_all sampleBudgets [] [] (by decide) (by decide))]
  decide

/-- C8 (the code departs from it on a budget without a transactions list, the defect
of C1): there the component throws and produces no summary. The component renders
the empty state, which carries no summary and no derived list, exactly when `budgets`
is empty; on every non-empty list of budgets that all carry a transactions list it
produces a summary with `totalBudgets = length budgets`. -/
theorem emptyState_iff_nil (budgets : List Budget)
    (recurringIncome recurringExpenses : List RecurringItem) :
    Dashboard [bareBudget] recurringIncome recurringExpenses = .error .typeError ∧
    (Dashboard budgets recurringIncome recurringExpenses = .ok .emptyState ↔ budgets = []) ∧
    (budgets ≠ [] → AllHaveTransactions budgets →
      ∃ o, Dashboard budgets recurringIncome recurringExpenses = .ok (.overview o) ∧
        o.analytics.totalBudgets = budgets.length) := by
  refine ⟨rfl, ⟨?_, ?_⟩, ?_⟩
  · intro h
    by_contra hne
    unfold Dashboard at h
    rw [if_neg (fun hl => hne (List.length_eq_zero.mp hl))] at h
    split at h <;> cases h
  · intro h
    subst h
    rfl
  · intro hne hall
    exact ⟨_, Dashboard_of_all budgets _ _ hne hall, rfl⟩

/-- Witness of C8: the empty list gives the empty state, the sample a summary of four
budgets. -/
theorem emptyState_iff_nil_witness :
    Dashboard [] scenarioIncome scenarioExpenses = .ok .emptyState ∧
    sampleBudgets ≠ [] ∧ AllHaveTransactions sampleBudgets ∧
    ∃ o, Dashboard sampleBudgets scenarioIncome scenarioExpenses = .ok (.overview o) ∧
      o.analytics.totalBudgets = 4 := by
  refine ⟨(emptyState_iff_nil [] scenarioIncome scenarioExpenses).2.1.mpr rfl,
    by decide, by decide, ?_⟩
  obtain ⟨o, ho, h⟩ :=
    (emptyState_iff_nil sampleBudgets scenarioIncome scenarioExpenses).2.2 (by decide) (by decide)
  exact ⟨o, ho, h⟩

/-- C10: `recentBudgets` selects budgets of largest id: together with the budgets left
out it is a rearrangement of the input (so it uses no budget more often than the input
holds it), and every budget left out has an id at most the id of every budget in it. -/
theorem recentBudgets_largest_ids (budgets : List Budget)
    (recurringIncome recurringExpenses : List RecurringItem) :
    (recentBudgets budgets).Subperm budgets ∧
    (∃ rest : List Budget, (recentBudgets budgets ++ rest).Perm budgets ∧
      ∀ x ∈ rest, ∀ y ∈ recentBudgets budgets, x.id ≤ y.id) ∧
    (∀ o, Dashboard budgets recurringIncome recurringExpenses = .ok (.overview o) →
      o.recentBudgets = recentBudgets budgets) := by
  have hperm : (recentBudgets budgets ++ (sort (fun a b => b.id - a.id) budgets).drop 3).Perm budgets := by
    unfold recentBudgets
    rw [List.take_append_drop]
    exact sort_perm _ budgets
  refine ⟨?_, ⟨_, hperm, ?_⟩, ?_⟩
  · exact ((List.take_sublist 3 _).subperm).trans (sort_perm _ budgets).subperm
  · intro x hx y hy
    have hsorted := sort_pairwise (fun b : Budget => b.id) budgets
    rw [← List.take_append_drop 3 (sort (fun a b => b.id - a.id) budgets),
      List.pairwise_append] at hsorted
    exact hsorted.2.2 y hy x hx
  · intro o ho
    exact Dashboard_recentBudgets budgets _ _ o ho

/-- Witness of C10 on the sample: the overview shows the budgets of ids 7, 5 and 3, a
part of the input; the budget left out is the second one of id 3. -/
theorem recentBudgets_largest_ids_witness :
    ∃ o, Dashboard sampleBudgets [] [] = .ok (.overview o) ∧
      o.recentBudgets.Subperm sampleBudgets ∧
      o.recentBudgets.map (fun b => (b.id, b.name)) = [(7, "Food"), (5, "Books"), (3, "Rent")] := by
  have ho := Dashboard_of_all sampleBudgets [] [] (by decide) (by decide)
  have h := recentBudgets_largest_ids sampleBudgets [] []
  refine ⟨_, ho, ?_, ?_⟩
  · rw [h.2.2 _ ho]
    exact h.1
  · rw [h.2.2 _ ho]
    decide

/-- C9: the component does not mutate its inputs: whatever heap it starts from and
whether or not it throws, the heap it leaves is the initial heap followed by fresh
cells, so the array of budgets and every transactions array (any array that existed
before) hold the same elements in the same order afterwards; the in-place sorts hit
only the copies made by the spread and by `flatMap`. -/
theorem inputs_not_mutated (heap : Heap) (budgets : Ref)
    (recurringIncome recurringExpenses : List RecurringItem) :
    heap <+: (DashboardOnHeap heap budgets recurringIncome recurringExpenses).1 ∧
    ∀ (ref : Ref) (array : JsArray), heap[ref]? = some array →
      (DashboardOnHeap heap budgets recurringIncome recurringExpenses).1[ref]? = some array := by
  have hp := DashboardOnHeap_extends heap budgets recurringIncome recurringExpenses
  refine ⟨hp, ?_⟩
  intro ref array h
  obtain ⟨extra, he⟩ := hp
  have hlt : ref < heap.length := by
    obtain ⟨hlt, _⟩ := List.getElem?_eq_some.mp h
    exact hlt
  rw [← he, List.getElem?_append_left hlt]
  exact h

/-- Witness of C9 on the sample heap: the run allocates nine fresh cells and leaves the
array of budgets, cell 4, as it was, in input order. -/
theorem inputs_not_mutated_witness :
    (DashboardOnHeap sampleHeap 4 [] []).1.length = 14 ∧
    (DashboardOnHeap sampleHeap 4 [] []).1[4]? = sampleHeap[4]? ∧
    (DashboardOnHeap sampleHeap 4 [] []).1[5]?
      = some (.budgets (sort (fun a b => b.id - a.id)
          [ { id := 3, name := "Rent", amount := 900, spent := 900, transactions := some 0 },
            { id := 7, name := "Food", amount := 300, spent := 120, transactions := some 1 },
            { id := 3, name := "Travel", amount := 200, spent := 250, transactions := some 2 },
            { id := 5, name := "Books", amount := 60, spent := 0, transactions := some 3 } ])) := by
  refine ⟨by decide, ?_, by decide⟩
  exact (inputs_not_mutated sampleHeap 4 [] []).2 4 _ rfl

end BudgetApp
